import Mathlib

/-!
Verification of the multipass-exporter collection pipeline.

The Go source (package `collector`) is shallowly embedded as follows:

* `MultipassInfoResponse.info`, a Go `map[string]MultipassInfoOutput`, is
  modelled as an association list `List (String × MultipassInfoOutput)`;
  the list order stands for one iteration order of the map, and two lists
  that are permutations of each other represent the same map object
  (Go randomizes map iteration order on every `range`).
* `float64` metric values are modelled as exact rationals `ℚ`
  (no claim here depends on floating-point rounding);
  `int64` fields are modelled as `Int`.
* A `prometheus.Metric` sent to the channel is a `Reading`
  (descriptor name, gauge value, label values in order).
* The child-process run inside `multipassInfo` is external to the
  repository; its observable outcome (run error, whether the context
  deadline fired, captured stdout/stderr) is an explicit input
  `ExecOutcome`, and `encoding/json.Unmarshal` (library code) is an
  oracle parameter `parse`.
-/

namespace MultipassExporter

/-- Go struct `MemoryInfo` (fields `total`, `used`, both `int64`). -/
structure MemoryInfo where
  total : Int
  used : Int
deriving DecidableEq, Repr

/-- Go struct `DiskInfo` (fields `total`, `used`, both `string`). -/
structure DiskInfo where
  total : String
  used : String
deriving DecidableEq, Repr

/-- Go struct `MultipassInfoOutput`: one instance record decoded from
`multipass info --format=json`.  The `mounts` field
(`map[string]interface{}`) is untyped in the source and unused by the
collector, so it is omitted. -/
structure MultipassInfoOutput where
  name : String
  state : String
  ipv4 : List String
  release : String
  imageHash : String
  imageRelease : String
  load : List ℚ
  cpuCount : String
  memory : MemoryInfo
  disks : List (String × DiskInfo)
deriving DecidableEq, Repr

/-- Go struct `MultipassInfoResponse`: the decoded snapshot.  The field
`Info map[string]MultipassInfoOutput` is an association list from the
instance name (map key) to its record; the list order is one map
iteration order. -/
structure MultipassInfoResponse where
  info : List (String × MultipassInfoOutput)
deriving DecidableEq, Repr

/-- One metric sent on the Prometheus channel: descriptor name, gauge
value, and the label values in the order they are passed to
`prometheus.MustNewConstMetric`. -/
structure Reading where
  desc : String
  value : ℚ
  labels : List String
deriving DecidableEq, Repr

/-- Go `getInstanceCountByStateWithData`: counts the records whose
`State` equals the given literal. -/
def getInstanceCountByStateWithData (data : MultipassInfoResponse) (state : String) : Nat :=
  data.info.countP (fun p => decide (p.2.state = state))

/-- Go struct `instanceMetric` (the table rows built in `Collect`);
the `*prometheus.Desc` is represented by the metric name. -/
structure instanceMetric where
  name : String
  state : String
  desc : String
deriving DecidableEq, Repr

/-- The `instanceMetrics` table built in `Collect`. -/
def instanceMetrics : List instanceMetric :=
  [⟨"total", "", "multipass_instances_total"⟩,
   ⟨"running", "Running", "multipass_instances_running"⟩,
   ⟨"stopped", "Stopped", "multipass_instances_stopped"⟩,
   ⟨"deleted", "Deleted", "multipass_instances_deleted"⟩,
   ⟨"suspended", "Suspended", "multipass_instances_suspended"⟩]

/-- Go `collectInstanceMetric`: emits one unlabelled gauge; the empty
state string selects the total count, otherwise the per-state count.
The Go function always returns a nil error. -/
def collectInstanceMetric (data : MultipassInfoResponse) (m : instanceMetric) :
    Except String Reading :=
  let count : Nat :=
    if m.state = "" then data.info.length
    else getInstanceCountByStateWithData data m.state
  .ok ⟨m.desc, (count : ℚ), []⟩

/-- The loop over `instanceMetrics` in `Collect`: readings emitted so
far, plus the first error if one occurs (none ever does, since
`collectInstanceMetric` always succeeds). -/
def runInstanceMetrics (data : MultipassInfoResponse) :
    List instanceMetric → List Reading × Option String
  | [] => ([], none)
  | m :: rest =>
    match collectInstanceMetric data m with
    | .error e => ([], some e)
    | .ok r =>
      let p := runInstanceMetrics data rest
      (r :: p.1, p.2)

/-- Loop body of Go `collectInstanceMemoryBytesWithData` for one map
entry `(name, info)`: skip when `info.Memory.Used == 0`, otherwise emit
one labelled gauge. -/
def memEntry (p : String × MultipassInfoOutput) : List Reading :=
  if p.2.memory.used = 0 then []
  else [⟨"multipass_instance_memory_bytes", (p.2.memory.used : ℚ), [p.1, p.2.release]⟩]

/-- Go `collectInstanceMemoryBytesWithData`: ranges over the map,
emitting `memEntry` per entry; always returns a nil error. -/
def collectInstanceMemoryBytesWithData (data : MultipassInfoResponse) :
    Except String (List Reading) :=
  .ok (data.info.flatMap memEntry)

/-- The white-space characters the fmt scanner skips before a token
(Go's `space` ranges in fmt/scan.go: tab through carriage return,
space, NEL, NBSP and the Unicode space separators), except newline,
which `Sscanf` turns into a scan error and is handled separately. -/
def isFmtSpace (c : Char) : Bool :=
  c.toNat == 0x20 || c.toNat == 0x09 || c.toNat == 0x0B || c.toNat == 0x0C || c.toNat == 0x0D ||
  c.toNat == 0x85 || c.toNat == 0xA0 || c.toNat == 0x1680 ||
  (0x2000 ≤ c.toNat && c.toNat ≤ 0x200A) || c.toNat == 0x2028 || c.toNat == 0x2029 ||
  c.toNat == 0x202F || c.toNat == 0x205F || c.toNat == 0x3000

/-- Model of `fmt.Sscanf(s, "%d", &x)` on one string: skip leading
white space (a newline in the input does not match the format and
fails), read an optional sign and then a maximal nonempty run of
decimal digits, ignoring whatever follows; the token is then converted
by `strconv.ParseInt(tok, 10, 64)`, which fails when the value is
outside the signed 64-bit range.  Returns the parsed integer, or
`none` when no digits are found or the value does not fit in int64
(the Go `int` here is 64-bit: the build targets amd64/arm64). -/
def fmtSscanfInt (s : String) : Option Int :=
  match s.toList.dropWhile isFmtSpace with
  | [] => none
  | c :: rest =>
    if c = '\n' then none
    else
      let sb : Int × List Char :=
        if c = '-' then (-1, rest)
        else if c = '+' then (1, rest) else (1, c :: rest)
      let ds := sb.2.takeWhile Char.isDigit
      if ds.isEmpty then none
      else
        let v : Int := sb.1 * (ds.foldl (fun a d => a * 10 + (d.toNat - 48)) 0 : Nat)
        if v < -(2 ^ 63) ∨ (2 ^ 63 - 1 : Int) < v then none else some v

/-- Loop body of Go `collectInstanceCPUTotalWithData` for one map
entry: skip when `CPUCount` is empty, skip when `fmt.Sscanf` fails,
otherwise emit the parsed count as a labelled gauge. -/
def cpuEntry (p : String × MultipassInfoOutput) : List Reading :=
  if p.2.cpuCount = "" then []
  else
    match fmtSscanfInt p.2.cpuCount with
    | none => []
    | some v => [⟨"multipass_instance_cpu_total", (v : ℚ), [p.1, p.2.release]⟩]

/-- Go `collectInstanceCPUTotalWithData`: ranges over the map, emitting
`cpuEntry` per entry; always returns a nil error. -/
def collectInstanceCPUTotalWithData (data : MultipassInfoResponse) :
    Except String (List Reading) :=
  .ok (data.info.flatMap cpuEntry)

/-- Loop body of Go `collectInstanceLoadWithData` for one map entry:
skip unless `len(info.Load) == 3`, otherwise emit the 1m, 5m and 15m
gauges from `Load[0]`, `Load[1]`, `Load[2]` in that order. -/
def loadEntry (p : String × MultipassInfoOutput) : List Reading :=
  match p.2.load with
  | [l1, l5, l15] =>
    [⟨"multipass_instance_load_1m", l1, [p.1, p.2.release]⟩,
     ⟨"multipass_instance_load_5m", l5, [p.1, p.2.release]⟩,
     ⟨"multipass_instance_load_15m", l15, [p.1, p.2.release]⟩]
  | _ => []

/-- Go `collectInstanceLoadWithData`: ranges over the map, emitting
`loadEntry` per entry; always returns a nil error. -/
def collectInstanceLoadWithData (data : MultipassInfoResponse) :
    Except String (List Reading) :=
  .ok (data.info.flatMap loadEntry)

/-- The single reading sent by Go `collectError`: gauge
`multipass_error` with value 1 and no labels. -/
def errorReading : Reading := ⟨"multipass_error", 1, []⟩

/-- The error taxonomy of `multipassInfo` (the three `fmt.Errorf`
shapes): a timeout carrying the configured duration, an execution
failure carrying the run error and captured stderr, or a parse failure
carrying the decoder complaint and the raw stdout/stderr. -/
inductive FetchErr where
  | timeout (duration : Nat)
  | executionFailure (msg stderr : String)
  | parseFailure (msg stdout stderr : String)
deriving DecidableEq, Repr

/-- Observable outcome of the child-process run inside `multipassInfo`:
the error from `cmd.Run()` if any, whether `ctx.Err()` was
`context.DeadlineExceeded`, and the captured stdout and stderr. -/
structure ExecOutcome where
  runError : Option String
  deadlineExceeded : Bool
  stdout : String
  stderr : String
deriving DecidableEq, Repr

/-- Go `multipassInfo`: on a run error it returns the zero-value
response together with a `Timeout` error when the deadline fired and an
`ExecutionFailure` otherwise; on a clean run it decodes stdout with
`parse` (the `json.Unmarshal` oracle), turning a decoder complaint into
a `ParseFailure` with the zero-value response, and otherwise returns
the decoded snapshot with no error. -/
def multipassInfo (timeout : Nat) (parse : String → Except String MultipassInfoResponse)
    (r : ExecOutcome) : MultipassInfoResponse × Option FetchErr :=
  match r.runError with
  | some e =>
    if r.deadlineExceeded then (⟨[]⟩, some (.timeout timeout))
    else (⟨[]⟩, some (.executionFailure e r.stderr))
  | none =>
    match parse r.stdout with
    | .error msg => (⟨[]⟩, some (.parseFailure msg r.stdout r.stderr))
    | .ok data => (data, none)

/-- Go `Collect`, as a function of the fetch outcome
(`multipassInfo`'s pair): on a fetch error it emits only the error
indicator; otherwise it runs the count loop and the three per-instance
collectors in order, emitting the error indicator after the readings
already sent if any step reported an error (none ever does). -/
def Collect (fetched : MultipassInfoResponse × Option FetchErr) : List Reading :=
  match fetched.2 with
  | some _ => [errorReading]
  | none =>
    let data := fetched.1
    let run := runInstanceMetrics data instanceMetrics
    match run.2 with
    | some _ => run.1 ++ [errorReading]
    | none =>
      match collectInstanceMemoryBytesWithData data with
      | .error _ => run.1 ++ [errorReading]
      | .ok memRs =>
        match collectInstanceCPUTotalWithData data with
        | .error _ => run.1 ++ memRs ++ [errorReading]
        | .ok cpuRs =>
          match collectInstanceLoadWithData data with
          | .error _ => run.1 ++ memRs ++ cpuRs ++ [errorReading]
          | .ok loadRs => run.1 ++ memRs ++ cpuRs ++ loadRs

/-- The readings of one metric for one instance within an emitted
sequence: those whose descriptor is `d` and whose first label value
(the map key the collector ranges over) is `n`. -/
def readingsOf (d n : String) (rs : List Reading) : List Reading :=
  rs.filter (fun r => r.desc == d && r.labels.headD "" == n)

/-- The load readings (1m, 5m or 15m) for one instance within an
emitted sequence, in emission order. -/
def loadReadingsOf (n : String) (rs : List Reading) : List Reading :=
  rs.filter (fun r =>
    (r.desc == "multipass_instance_load_1m" || r.desc == "multipass_instance_load_5m" ||
      r.desc == "multipass_instance_load_15m") && r.labels.headD "" == n)

/-- The count loop always succeeds and emits the five unlabelled count
gauges in table order. -/
lemma runInstanceMetrics_eq (data : MultipassInfoResponse) :
    runInstanceMetrics data instanceMetrics =
      ([⟨"multipass_instances_total", ((data.info.length : Nat) : ℚ), []⟩,
        ⟨"multipass_instances_running", ((getInstanceCountByStateWithData data "Running" : Nat) : ℚ), []⟩,
        ⟨"multipass_instances_stopped", ((getInstanceCountByStateWithData data "Stopped" : Nat) : ℚ), []⟩,
        ⟨"multipass_instances_deleted", ((getInstanceCountByStateWithData data "Deleted" : Nat) : ℚ), []⟩,
        ⟨"multipass_instances_suspended", ((getInstanceCountByStateWithData data "Suspended" : Nat) : ℚ), []⟩],
       none) := rfl

/-- On a successful fetch, `Collect` emits the five counts, then the
memory, cpu and load sections, in source order. -/
lemma Collect_ok (data : MultipassInfoResponse) :
    Collect (data, none) =
      (runInstanceMetrics data instanceMetrics).1 ++
        data.info.flatMap memEntry ++ data.info.flatMap cpuEntry ++
        data.info.flatMap loadEntry := rfl

/-- Every reading the memory loop body emits carries the memory
descriptor and its map key as first label. -/
lemma memEntry_shape {p : String × MultipassInfoOutput} {r : Reading} (h : r ∈ memEntry p) :
    r.desc = "multipass_instance_memory_bytes" ∧ r.labels.headD "" = p.1 := by
  unfold memEntry at h
  split at h
  · simp at h
  · rw [List.mem_singleton] at h
    subst h
    exact ⟨rfl, rfl⟩

/-- Every reading the cpu loop body emits carries the cpu descriptor
and its map key as first label. -/
lemma cpuEntry_shape {p : String × MultipassInfoOutput} {r : Reading} (h : r ∈ cpuEntry p) :
    r.desc = "multipass_instance_cpu_total" ∧ r.labels.headD "" = p.1 := by
  unfold cpuEntry at h
  split at h
  · simp at h
  · split at h
    · simp at h
    · rw [List.mem_singleton] at h
      subst h
      exact ⟨rfl, rfl⟩

/-- Every reading the load loop body emits carries one of the three
load descriptors and its map key as first label. -/
lemma loadEntry_shape {p : String × MultipassInfoOutput} {r : Reading} (h : r ∈ loadEntry p) :
    (r.desc = "multipass_instance_load_1m" ∨ r.desc = "multipass_instance_load_5m" ∨
      r.desc = "multipass_instance_load_15m") ∧ r.labels.headD "" = p.1 := by
  unfold loadEntry at h
  split at h
  · simp only [List.mem_cons, List.not_mem_nil, or_false] at h
    rcases h with rfl | rfl | rfl
    · exact ⟨Or.inl rfl, rfl⟩
    · exact ⟨Or.inr (Or.inl rfl), rfl⟩
    · exact ⟨Or.inr (Or.inr rfl), rfl⟩
  · simp at h

/-- Every reading of the count loop carries one of the five count
descriptors. -/
lemma countReading_desc {data : MultipassInfoResponse} {r : Reading}
    (h : r ∈ (runInstanceMetrics data instanceMetrics).1) :
    r.desc = "multipass_instances_total" ∨ r.desc = "multipass_instances_running" ∨
      r.desc = "multipass_instances_stopped" ∨ r.desc = "multipass_instances_deleted" ∨
      r.desc = "multipass_instances_suspended" := by
  rw [runInstanceMetrics_eq] at h
  simp only [List.mem_cons, List.not_mem_nil, or_false] at h
  rcases h with rfl | rfl | rfl | rfl | rfl
  · exact Or.inl rfl
  · exact Or.inr (Or.inl rfl)
  · exact Or.inr (Or.inr (Or.inl rfl))
  · exact Or.inr (Or.inr (Or.inr (Or.inl rfl)))
  · exact Or.inr (Or.inr (Or.inr (Or.inr rfl)))

/-- A filter whose first conjunct fails on every element yields nothing. -/
lemma filter_and_nil (Q P : Reading → Bool) (rs : List Reading)
    (h : ∀ r ∈ rs, Q r = false) :
    rs.filter (fun r => Q r && P r) = [] := by
  rw [List.filter_eq_nil_iff]
  intro r hr
  simp [h r hr]

/-- Filtering a per-entry section by map key: in a map with no
duplicate keys, the readings whose first label is `name` are exactly
those the loop body produces for the entry `(name, info)`. -/
lemma filter_and_flatMap (Q : Reading → Bool) (f : String × MultipassInfoOutput → List Reading)
    (hf : ∀ k i r, r ∈ f (k, i) → Q r = true ∧ r.labels.headD "" = k)
    (l : List (String × MultipassInfoOutput)) (name : String) (info : MultipassInfoOutput)
    (hnd : (l.map Prod.fst).Nodup) (hmem : (name, info) ∈ l) :
    (l.flatMap f).filter (fun r => Q r && r.labels.headD "" == name) = f (name, info) := by
  induction l with
  | nil => simp at hmem
  | cons p t ih =>
    obtain ⟨k, i⟩ := p
    rw [List.map_cons, List.nodup_cons] at hnd
    rw [List.flatMap_cons, List.filter_append]
    rcases List.mem_cons.mp hmem with heq | htail
    · injection heq with h1 h2
      subst h1
      subst h2
      have h1 : (f (name, info)).filter (fun r => Q r && r.labels.headD "" == name) =
          f (name, info) := by
        rw [List.filter_eq_self]
        intro r hr
        obtain ⟨hq, hk⟩ := hf name info r hr
        simp only [hq, hk, beq_self_eq_true, Bool.and_self]
      have h2 : (t.flatMap f).filter (fun r => Q r && r.labels.headD "" == name) = [] := by
        rw [List.filter_eq_nil_iff]
        intro r hr
        obtain ⟨q, hq, hrq⟩ := List.mem_flatMap.mp hr
        obtain ⟨k2, i2⟩ := q
        obtain ⟨_, hk2⟩ := hf k2 i2 r hrq
        have hmemk : k2 ∈ t.map Prod.fst := List.mem_map.mpr ⟨(k2, i2), hq, rfl⟩
        have hne : k2 ≠ name := fun h => hnd.1 (h ▸ hmemk)
        simp only [Bool.and_eq_true, beq_iff_eq, hk2, not_and]
        exact fun _ h => hne h
      rw [h1, h2, List.append_nil]
    · have hkname : k ≠ name := by
        intro h
        subst h
        exact hnd.1 (List.mem_map.mpr ⟨(k, info), htail, rfl⟩)
      have h1 : (f (k, i)).filter (fun r => Q r && r.labels.headD "" == name) = [] := by
        rw [List.filter_eq_nil_iff]
        intro r hr
        obtain ⟨_, hk⟩ := hf k i r hr
        simp only [Bool.and_eq_true, beq_iff_eq, hk, not_and]
        exact fun _ h => hkname h
      rw [h1, List.nil_append]
      exact ih hnd.2 htail

/-- The memory readings `Collect` emits for one instance of a
successful fetch are exactly what the memory loop body produces for
its map entry. -/
lemma memory_section_of_Collect (data : MultipassInfoResponse) (name : String)
    (info : MultipassInfoOutput) (hnd : (data.info.map Prod.fst).Nodup)
    (hmem : (name, info) ∈ data.info) :
    readingsOf "multipass_instance_memory_bytes" name (Collect (data, none)) =
      memEntry (name, info) := by
  unfold readingsOf
  rw [Collect_ok, List.filter_append, List.filter_append, List.filter_append]
  have hc : (runInstanceMetrics data instanceMetrics).1.filter
      (fun r => r.desc == "multipass_instance_memory_bytes" && r.labels.headD "" == name) = [] := by
    refine filter_and_nil (fun r => r.desc == "multipass_instance_memory_bytes")
      (fun r => r.labels.headD "" == name) _ ?_
    intro r hr
    rcases countReading_desc hr with h | h | h | h | h <;> simp only [h] <;> decide
  have hcpu : (data.info.flatMap cpuEntry).filter
      (fun r => r.desc == "multipass_instance_memory_bytes" && r.labels.headD "" == name) = [] := by
    refine filter_and_nil (fun r => r.desc == "multipass_instance_memory_bytes")
      (fun r => r.labels.headD "" == name) _ ?_
    intro r hr
    obtain ⟨p, _, hrp⟩ := List.mem_flatMap.mp hr
    simp only [(cpuEntry_shape hrp).1]
    decide
  have hload : (data.info.flatMap loadEntry).filter
      (fun r => r.desc == "multipass_instance_memory_bytes" && r.labels.headD "" == name) = [] := by
    refine filter_and_nil (fun r => r.desc == "multipass_instance_memory_bytes")
      (fun r => r.labels.headD "" == name) _ ?_
    intro r hr
    obtain ⟨p, _, hrp⟩ := List.mem_flatMap.mp hr
    rcases (loadEntry_shape hrp).1 with h | h | h <;> simp only [h] <;> decide
  have hsec : (data.info.flatMap memEntry).filter
      (fun r => r.desc == "multipass_instance_memory_bytes" && r.labels.headD "" == name) =
      memEntry (name, info) := by
    refine filter_and_flatMap (fun r => r.desc == "multipass_instance_memory_bytes")
      memEntry ?_ data.info name info hnd hmem
    intro k i r hr
    obtain ⟨hd, hk⟩ := memEntry_shape hr
    exact ⟨by simp only [hd]; decide, hk⟩
  rw [hc, hcpu, hload, hsec]
  simp

/-- The cpu readings `Collect` emits for one instance of a successful
fetch are exactly what the cpu loop body produces for its map entry. -/
lemma cpu_section_of_Collect (data : MultipassInfoResponse) (name : String)
    (info : MultipassInfoOutput) (hnd : (data.info.map Prod.fst).Nodup)
    (hmem : (name, info) ∈ data.info) :
    readingsOf "multipass_instance_cpu_total" name (Collect (data, none)) =
      cpuEntry (name, info) := by
  unfold readingsOf
  rw [Collect_ok, List.filter_append, List.filter_append, List.filter_append]
  have hc : (runInstanceMetrics data instanceMetrics).1.filter
      (fun r => r.desc == "multipass_instance_cpu_total" && r.labels.headD "" == name) = [] := by
    refine filter_and_nil (fun r => r.desc == "multipass_instance_cpu_total")
      (fun r => r.labels.headD "" == name) _ ?_
    intro r hr
    rcases countReading_desc hr with h | h | h | h | h <;> simp only [h] <;> decide
  have hmemf : (data.info.flatMap memEntry).filter
      (fun r => r.desc == "multipass_instance_cpu_total" && r.labels.headD "" == name) = [] := by
    refine filter_and_nil (fun r => r.desc == "multipass_instance_cpu_total")
      (fun r => r.labels.headD "" == name) _ ?_
    intro r hr
    obtain ⟨p, _, hrp⟩ := List.mem_flatMap.mp hr
    simp only [(memEntry_shape hrp).1]
    decide
  have hload : (data.info.flatMap loadEntry).filter
      (fun r => r.desc == "multipass_instance_cpu_total" && r.labels.headD "" == name) = [] := by
    refine filter_and_nil (fun r => r.desc == "multipass_instance_cpu_total")
      (fun r => r.labels.headD "" == name) _ ?_
    intro r hr
    obtain ⟨p, _, hrp⟩ := List.mem_flatMap.mp hr
    rcases (loadEntry_shape hrp).1 with h | h | h <;> simp only [h] <;> decide
  have hsec : (data.info.flatMap cpuEntry).filter
      (fun r => r.desc == "multipass_instance_cpu_total" && r.labels.headD "" == name) =
      cpuEntry (name, info) := by
    refine filter_and_flatMap (fun r => r.desc == "multipass_instance_cpu_total")
      cpuEntry ?_ data.info name info hnd hmem
    intro k i r hr
    obtain ⟨hd, hk⟩ := cpuEntry_shape hr
    exact ⟨by simp only [hd]; decide, hk⟩
  rw [hc, hmemf, hload, hsec]
  simp

/-- The load readings `Collect` emits for one instance of a successful
fetch are exactly what the load loop body produces for its map entry,
in emission order. -/
lemma load_section_of_Collect (data : MultipassInfoResponse) (name : String)
    (info : MultipassInfoOutput) (hnd : (data.info.map Prod.fst).Nodup)
    (hmem : (name, info) ∈ data.info) :
    loadReadingsOf name (Collect (data, none)) = loadEntry (name, info) := by
  unfold loadReadingsOf
  rw [Collect_ok, List.filter_append, List.filter_append, List.filter_append]
  have hc : (runInstanceMetrics data instanceMetrics).1.filter
      (fun r => (r.desc == "multipass_instance_load_1m" || r.desc == "multipass_instance_load_5m" ||
        r.desc == "multipass_instance_load_15m") && r.labels.headD "" == name) = [] := by
    refine filter_and_nil (fun r => r.desc == "multipass_instance_load_1m" ||
      r.desc == "multipass_instance_load_5m" || r.desc == "multipass_instance_load_15m")
      (fun r => r.labels.headD "" == name) _ ?_
    intro r hr
    rcases countReading_desc hr with h | h | h | h | h <;> simp only [h] <;> decide
  have hmemf : (data.info.flatMap memEntry).filter
      (fun r => (r.desc == "multipass_instance_load_1m" || r.desc == "multipass_instance_load_5m" ||
        r.desc == "multipass_instance_load_15m") && r.labels.headD "" == name) = [] := by
    refine filter_and_nil (fun r => r.desc == "multipass_instance_load_1m" ||
      r.desc == "multipass_instance_load_5m" || r.desc == "multipass_instance_load_15m")
      (fun r => r.labels.headD "" == name) _ ?_
    intro r hr
    obtain ⟨p, _, hrp⟩ := List.mem_flatMap.mp hr
    simp only [(memEntry_shape hrp).1]
    decide
  have hcpu : (data.info.flatMap cpuEntry).filter
      (fun r => (r.desc == "multipass_instance_load_1m" || r.desc == "multipass_instance_load_5m" ||
        r.desc == "multipass_instance_load_15m") && r.labels.headD "" == name) = [] := by
    refine filter_and_nil (fun r => r.desc == "multipass_instance_load_1m" ||
      r.desc == "multipass_instance_load_5m" || r.desc == "multipass_instance_load_15m")
      (fun r => r.labels.headD "" == name) _ ?_
    intro r hr
    obtain ⟨p, _, hrp⟩ := List.mem_flatMap.mp hr
    simp only [(cpuEntry_shape hrp).1]
    decide
  have hsec : (data.info.flatMap loadEntry).filter
      (fun r => (r.desc == "multipass_instance_load_1m" || r.desc == "multipass_instance_load_5m" ||
        r.desc == "multipass_instance_load_15m") && r.labels.headD "" == name) =
      loadEntry (name, info) := by
    refine filter_and_flatMap (fun r => r.desc == "multipass_instance_load_1m" ||
      r.desc == "multipass_instance_load_5m" || r.desc == "multipass_instance_load_15m")
      loadEntry ?_ data.info name info hnd hmem
    intro k i r hr
    obtain ⟨hd, hk⟩ := loadEntry_shape hr
    refine ⟨?_, hk⟩
    rcases hd with h | h | h <;> simp only [h] <;> decide
  rw [hc, hmemf, hcpu, hsec]
  simp

/-- A state string matches at most one of the four counted literals. -/
lemma state_indicator_le_one (s : String) :
    ((if s = "Running" then 1 else 0) + (if s = "Stopped" then 1 else 0) +
      (if s = "Deleted" then 1 else 0) + (if s = "Suspended" then 1 else 0) : Nat) ≤ 1 := by
  by_cases h1 : s = "Running"
  · subst h1
    decide
  by_cases h2 : s = "Stopped"
  · subst h2
    decide
  by_cases h3 : s = "Deleted"
  · subst h3
    decide
  by_cases h4 : s = "Suspended"
  · subst h4
    decide
  simp [h1, h2, h3, h4]

/-- A state string among the four counted literals matches exactly one. -/
lemma state_indicator_eq_one (s : String)
    (h : s = "Running" ∨ s = "Stopped" ∨ s = "Deleted" ∨ s = "Suspended") :
    ((if s = "Running" then 1 else 0) + (if s = "Stopped" then 1 else 0) +
      (if s = "Deleted" then 1 else 0) + (if s = "Suspended" then 1 else 0) : Nat) = 1 := by
  rcases h with rfl | rfl | rfl | rfl <;> decide

/-- The four per-state counts sum to at most the number of entries. -/
lemma countP_states_le (l : List (String × MultipassInfoOutput)) :
    l.countP (fun p => decide (p.2.state = "Running")) +
      l.countP (fun p => decide (p.2.state = "Stopped")) +
      l.countP (fun p => decide (p.2.state = "Deleted")) +
      l.countP (fun p => decide (p.2.state = "Suspended")) ≤ l.length := by
  induction l with
  | nil => simp
  | cons p t ih =>
    simp only [List.countP_cons, List.length_cons, decide_eq_true_eq]
    have h := state_indicator_le_one p.2.state
    omega

/-- When every entry is in one of the four counted states, the four
per-state counts sum to exactly the number of entries. -/
lemma countP_states_eq (l : List (String × MultipassInfoOutput))
    (h : ∀ p ∈ l, p.2.state = "Running" ∨ p.2.state = "Stopped" ∨ p.2.state = "Deleted" ∨
      p.2.state = "Suspended") :
    l.countP (fun p => decide (p.2.state = "Running")) +
      l.countP (fun p => decide (p.2.state = "Stopped")) +
      l.countP (fun p => decide (p.2.state = "Deleted")) +
      l.countP (fun p => decide (p.2.state = "Suspended")) = l.length := by
  induction l with
  | nil => simp
  | cons p t ih =>
    simp only [List.countP_cons, List.length_cons, decide_eq_true_eq]
    have h1 := state_indicator_eq_one p.2.state (h p (List.mem_cons_self p t))
    have h2 := ih (fun q hq => h q (List.mem_cons_of_mem p hq))
    omega

/-- A zero-value instance record; fields are Go zero values. -/
def baseInst : MultipassInfoOutput :=
  { name := "", state := "", ipv4 := [], release := "", imageHash := "", imageRelease := "",
    load := [], cpuCount := "", memory := { total := 0, used := 0 }, disks := [] }

/-- Sample snapshot with one instance in each of the four counted states. -/
def statesSample : MultipassInfoResponse :=
  ⟨[("r1", { baseInst with state := "Running" }),
    ("s1", { baseInst with state := "Stopped" }),
    ("d1", { baseInst with state := "Deleted" }),
    ("z1", { baseInst with state := "Suspended" })]⟩

/-- A fetch outcome that failed (non-zero exit). -/
def errFetch : MultipassInfoResponse × Option FetchErr :=
  (⟨[]⟩, some (.executionFailure "exit status 1" "boom"))

/-- Claim C1: `Collect` emits the collection-error indicator reading
(value 1) if and only if the fetch failed: on any fetch error the
emitted sequence is exactly the single indicator reading, and on a
successful fetch no reading carries the indicator descriptor. -/
theorem collect_error_indicator_iff_fetch_failure
    (res : MultipassInfoResponse × Option FetchErr) :
    (res.2.isSome = true → Collect res = [errorReading]) ∧
    (res.2 = none → ∀ r ∈ Collect res, r.desc ≠ "multipass_error") := by
  obtain ⟨data, e⟩ := res
  constructor
  · intro h
    cases e with
    | none => simp at h
    | some err => rfl
  · intro h r hr
    cases e with
    | some err => simp at h
    | none =>
      rw [Collect_ok] at hr
      rcases List.mem_append.mp hr with hr3 | h4
      · rcases List.mem_append.mp hr3 with hr2 | h3
        · rcases List.mem_append.mp hr2 with h1 | h2
          · rcases countReading_desc h1 with hh | hh | hh | hh | hh <;> rw [hh] <;> decide
          · obtain ⟨p, _, hp⟩ := List.mem_flatMap.mp h2
            rw [(memEntry_shape hp).1]
            decide
        · obtain ⟨p, _, hp⟩ := List.mem_flatMap.mp h3
          rw [(cpuEntry_shape hp).1]
          decide
      · obtain ⟨p, _, hp⟩ := List.mem_flatMap.mp h4
        rcases (loadEntry_shape hp).1 with hh | hh | hh <;> rw [hh] <;> decide

/-- Witness for C1 at a concrete failed fetch. -/
theorem collect_error_indicator_iff_fetch_failure_witness :
    Collect errFetch = [errorReading] :=
  (collect_error_indicator_iff_fetch_failure errFetch).1 rfl

/-- Claim C2: for every snapshot, the sum of the four per-state counts
is at most the total count `len(snapshot)`, with equality when every
instance's state is one of the four counted literals. -/
theorem state_count_sum_vs_total (data : MultipassInfoResponse) :
    getInstanceCountByStateWithData data "Running" +
        getInstanceCountByStateWithData data "Stopped" +
        getInstanceCountByStateWithData data "Deleted" +
        getInstanceCountByStateWithData data "Suspended" ≤ data.info.length ∧
    ((∀ p ∈ data.info, p.2.state = "Running" ∨ p.2.state = "Stopped" ∨
        p.2.state = "Deleted" ∨ p.2.state = "Suspended") →
      getInstanceCountByStateWithData data "Running" +
          getInstanceCountByStateWithData data "Stopped" +
          getInstanceCountByStateWithData data "Deleted" +
          getInstanceCountByStateWithData data "Suspended" = data.info.length) :=
  ⟨countP_states_le data.info, fun h => countP_states_eq data.info h⟩

/-- Witness for C2 at a concrete snapshot covering all four states. -/
theorem state_count_sum_vs_total_witness :
    getInstanceCountByStateWithData statesSample "Running" +
        getInstanceCountByStateWithData statesSample "Stopped" +
        getInstanceCountByStateWithData statesSample "Deleted" +
        getInstanceCountByStateWithData statesSample "Suspended" ≤ statesSample.info.length ∧
    getInstanceCountByStateWithData statesSample "Running" +
        getInstanceCountByStateWithData statesSample "Stopped" +
        getInstanceCountByStateWithData statesSample "Deleted" +
        getInstanceCountByStateWithData statesSample "Suspended" = statesSample.info.length :=
  ⟨(state_count_sum_vs_total statesSample).1,
   (state_count_sum_vs_total statesSample).2 (by decide)⟩

/-- Claim C7: when the deadline fired before the child exited (the run
reports an error and the context reports the deadline exceeded),
`multipassInfo` returns the empty snapshot together with a `Timeout`
error carrying the configured duration. -/
theorem timeout_yields_timeout_error (timeout : Nat)
    (parse : String → Except String MultipassInfoResponse) (r : ExecOutcome)
    (hdl : r.deadlineExceeded = true) (herr : r.runError.isSome = true) :
    multipassInfo timeout parse r = (⟨[]⟩, some (.timeout timeout)) := by
  obtain ⟨re, dl, so, se⟩ := r
  simp only at hdl herr
  obtain ⟨e, rfl⟩ := Option.isSome_iff_exists.mp herr
  subst hdl
  rfl

/-- Witness for C7 at a concrete timed-out run. -/
theorem timeout_yields_timeout_error_witness :
    multipassInfo 5 (fun _ => .ok ⟨[]⟩) ⟨some "signal: killed", true, "", ""⟩ =
      (⟨[]⟩, some (.timeout 5)) :=
  timeout_yields_timeout_error 5 (fun _ => .ok ⟨[]⟩) ⟨some "signal: killed", true, "", ""⟩ rfl rfl

/-- Claim C8: when the child exited cleanly but stdout does not decode,
`multipassInfo` returns the empty snapshot together with a
`ParseFailure` error carrying the decoder complaint and the raw
captured stdout and stderr. -/
theorem parse_failure_yields_parse_error (timeout : Nat)
    (parse : String → Except String MultipassInfoResponse) (r : ExecOutcome)
    (hrun : r.runError = none) (msg : String) (hp : parse r.stdout = .error msg) :
    multipassInfo timeout parse r = (⟨[]⟩, some (.parseFailure msg r.stdout r.stderr)) := by
  obtain ⟨re, dl, so, se⟩ := r
  simp only at hrun hp ⊢
  subst hrun
  unfold multipassInfo
  simp only
  rw [hp]

/-- Witness for C8 at a concrete run with undecodable stdout. -/
theorem parse_failure_yields_parse_error_witness :
    multipassInfo 5 (fun _ => .error "unexpected end of JSON input")
        ⟨none, false, "not json", "warn"⟩ =
      (⟨[]⟩, some (.parseFailure "unexpected end of JSON input" "not json" "warn")) :=
  parse_failure_yields_parse_error 5 (fun _ => .error "unexpected end of JSON input")
    ⟨none, false, "not json", "warn"⟩ rfl "unexpected end of JSON input" rfl

/-- Record with 512MB used memory. -/
def memInstA : MultipassInfoOutput :=
  { baseInst with release := "22.04 LTS", memory := { total := 1610612736, used := 536870912 } }

/-- Record with zero used memory. -/
def memInstZ : MultipassInfoOutput :=
  { baseInst with release := "20.04 LTS", memory := { total := 7, used := 0 } }

/-- Sample snapshot for the memory claims: one instance with 512MB
used, one with zero used bytes. -/
def memSample : MultipassInfoResponse := ⟨[("a", memInstA), ("z", memInstZ)]⟩

/-- Claim C3: for an instance of a successful fetch, a memory reading
labelled with its name and release and carrying `memoryUsedBytes` is
emitted exactly when `memoryUsedBytes` is nonzero; for a zero value no
memory reading is emitted for it. -/
theorem memory_reading_iff_nonzero (data : MultipassInfoResponse) (name : String)
    (info : MultipassInfoOutput) (hnd : (data.info.map Prod.fst).Nodup)
    (hmem : (name, info) ∈ data.info) :
    readingsOf "multipass_instance_memory_bytes" name (Collect (data, none)) =
      (if info.memory.used = 0 then []
       else [⟨"multipass_instance_memory_bytes", (info.memory.used : ℚ), [name, info.release]⟩]) :=
  memory_section_of_Collect data name info hnd hmem

/-- Witness for C3: the 512MB instance gets one reading, the zero-used
instance gets none. -/
theorem memory_reading_iff_nonzero_witness :
    readingsOf "multipass_instance_memory_bytes" "a" (Collect (memSample, none)) =
      [⟨"multipass_instance_memory_bytes", (536870912 : ℚ), ["a", "22.04 LTS"]⟩] ∧
    readingsOf "multipass_instance_memory_bytes" "z" (Collect (memSample, none)) = [] := by
  constructor
  · rw [memory_reading_iff_nonzero memSample "a" memInstA (by decide) (by decide)]
    rfl
  · rw [memory_reading_iff_nonzero memSample "z" memInstZ (by decide) (by decide)]
    rfl

/-- Record with negative used memory. -/
def memInstN : MultipassInfoOutput :=
  { baseInst with release := "r", memory := { total := 4, used := -5 } }

/-- Sample snapshot with a negative used-memory value. -/
def negMemSample : MultipassInfoResponse := ⟨[("n", memInstN)]⟩

/-- Claim C9: the memory skip tests only for the exact value zero, so a
negative `memoryUsedBytes` still yields a memory reading carrying that
negative value. -/
theorem negative_memory_still_emitted (data : MultipassInfoResponse) (name : String)
    (info : MultipassInfoOutput) (hnd : (data.info.map Prod.fst).Nodup)
    (hmem : (name, info) ∈ data.info) (hneg : info.memory.used < 0) :
    readingsOf "multipass_instance_memory_bytes" name (Collect (data, none)) =
      [⟨"multipass_instance_memory_bytes", (info.memory.used : ℚ), [name, info.release]⟩] ∧
    ((info.memory.used : ℚ) < 0) := by
  constructor
  · rw [memory_section_of_Collect data name info hnd hmem]
    unfold memEntry
    rw [if_neg (by omega : ¬ info.memory.used = 0)]
  · exact_mod_cast hneg

/-- Witness for C9 at a concrete instance with used memory -5. -/
theorem negative_memory_still_emitted_witness :
    readingsOf "multipass_instance_memory_bytes" "n" (Collect (negMemSample, none)) =
      [⟨"multipass_instance_memory_bytes", ((-5 : Int) : ℚ), ["n", "r"]⟩] ∧
    (((-5 : Int) : ℚ) < 0) :=
  negative_memory_still_emitted negMemSample "n" memInstN (by decide) (by decide) (by decide)

/-- Record with exactly three load samples. -/
def loadInstD : MultipassInfoOutput := { baseInst with release := "rd", load := [1, 2, 3] }

/-- Record with a single load sample. -/
def loadInstE : MultipassInfoOutput := { baseInst with release := "re", load := [1] }

/-- Sample snapshot for the load claim: one instance with exactly three
samples, one with a single sample. -/
def loadSample : MultipassInfoResponse := ⟨[("d", loadInstD), ("e", loadInstE)]⟩

/-- Claim C4: for an instance of a successful fetch with exactly three
load samples, exactly the three load readings (1m, 5m, 15m) are
emitted for it with those values in order; with any other number of
samples no load reading is emitted for it, and the load collector
reports no error. -/
theorem load_readings_iff_three_samples (data : MultipassInfoResponse) (name : String)
    (info : MultipassInfoOutput) (hnd : (data.info.map Prod.fst).Nodup)
    (hmem : (name, info) ∈ data.info) :
    (∀ x y z : ℚ, info.load = [x, y, z] →
      loadReadingsOf name (Collect (data, none)) =
        [⟨"multipass_instance_load_1m", x, [name, info.release]⟩,
         ⟨"multipass_instance_load_5m", y, [name, info.release]⟩,
         ⟨"multipass_instance_load_15m", z, [name, info.release]⟩]) ∧
    (info.load.length ≠ 3 → loadReadingsOf name (Collect (data, none)) = []) ∧
    collectInstanceLoadWithData data = .ok (data.info.flatMap loadEntry) := by
  refine ⟨?_, ?_, rfl⟩
  · intro x y z hxyz
    rw [load_section_of_Collect data name info hnd hmem]
    show loadEntry (name, info) = _
    unfold loadEntry
    simp only [hxyz]
  · intro hlen
    rw [load_section_of_Collect data name info hnd hmem]
    show loadEntry (name, info) = _
    unfold loadEntry
    split
    · rename_i x y z heq
      exact absurd (by rw [heq]; rfl) hlen
    · rfl

/-- Witness for C4: three readings for the three-sample instance, none
for the one-sample instance. -/
theorem load_readings_iff_three_samples_witness :
    loadReadingsOf "d" (Collect (loadSample, none)) =
      [⟨"multipass_instance_load_1m", 1, ["d", "rd"]⟩,
       ⟨"multipass_instance_load_5m", 2, ["d", "rd"]⟩,
       ⟨"multipass_instance_load_15m", 3, ["d", "rd"]⟩] ∧
    loadReadingsOf "e" (Collect (loadSample, none)) = [] := by
  constructor
  · exact (load_readings_iff_three_samples loadSample "d" loadInstD (by decide) (by decide)).1
      1 2 3 rfl
  · exact (load_readings_iff_three_samples loadSample "e" loadInstE (by decide)
      (by decide)).2.1 (by decide)

/-- Record with a parseable cpu count. -/
def cpuInstB : MultipassInfoOutput := { baseInst with release := "rb", cpuCount := "3" }

/-- Record with an unparseable cpu count. -/
def cpuInstC : MultipassInfoOutput := { baseInst with release := "rc", cpuCount := "abc" }

/-- Record with an empty cpu count. -/
def cpuInstQ : MultipassInfoOutput := { baseInst with release := "rq", cpuCount := "" }

/-- Sample snapshot for the cpu claims: a parseable count, an
unparseable one, and an empty one. -/
def cpuSample : MultipassInfoResponse := ⟨[("b", cpuInstB), ("c", cpuInstC), ("q", cpuInstQ)]⟩

/-- Claim C5: for an instance of a successful fetch, a cpu-count
reading labelled with its name and release is emitted exactly when its
textual `cpuCount` parses (as `fmt.Sscanf` with `%d` does), carrying
the parsed value; for an unparseable or empty `cpuCount` no cpu
reading is emitted for it, and the cpu collector reports no error. -/
theorem cpu_reading_iff_parses (data : MultipassInfoResponse) (name : String)
    (info : MultipassInfoOutput) (hnd : (data.info.map Prod.fst).Nodup)
    (hmem : (name, info) ∈ data.info) :
    (∀ v : Int, fmtSscanfInt info.cpuCount = some v →
      readingsOf "multipass_instance_cpu_total" name (Collect (data, none)) =
        [⟨"multipass_instance_cpu_total", (v : ℚ), [name, info.release]⟩]) ∧
    (fmtSscanfInt info.cpuCount = none →
      readingsOf "multipass_instance_cpu_total" name (Collect (data, none)) = []) ∧
    collectInstanceCPUTotalWithData data = .ok (data.info.flatMap cpuEntry) := by
  refine ⟨?_, ?_, rfl⟩
  · intro v hv
    rw [cpu_section_of_Collect data name info hnd hmem]
    show cpuEntry (name, info) = _
    unfold cpuEntry
    have hne : ¬ info.cpuCount = "" := by
      intro h
      rw [h] at hv
      rw [(rfl : fmtSscanfInt "" = none)] at hv
      exact Option.noConfusion hv
    rw [if_neg hne, hv]
  · intro hv
    rw [cpu_section_of_Collect data name info hnd hmem]
    show cpuEntry (name, info) = _
    unfold cpuEntry
    by_cases h : info.cpuCount = ""
    · rw [if_pos h]
    · rw [if_neg h, hv]

/-- Witness for C5: value 3 for `cpuCount="3"`, nothing for
`cpuCount="abc"` and for the empty string. -/
theorem cpu_reading_iff_parses_witness :
    readingsOf "multipass_instance_cpu_total" "b" (Collect (cpuSample, none)) =
      [⟨"multipass_instance_cpu_total", (3 : ℚ), ["b", "rb"]⟩] ∧
    readingsOf "multipass_instance_cpu_total" "c" (Collect (cpuSample, none)) = [] ∧
    readingsOf "multipass_instance_cpu_total" "q" (Collect (cpuSample, none)) = [] := by
  refine ⟨?_, ?_, ?_⟩
  · exact (cpu_reading_iff_parses cpuSample "b" cpuInstB (by decide) (by decide)).1 3 (by decide)
  · exact (cpu_reading_iff_parses cpuSample "c" cpuInstC (by decide) (by decide)).2.1 (by decide)
  · exact (cpu_reading_iff_parses cpuSample "q" cpuInstQ (by decide) (by decide)).2.1 (by decide)

/-- Decimal value of a digit run, most significant first (the
accumulator loop `fmt.Sscanf` effectively performs). -/
def natOfDigits (ds : List Char) : Nat := ds.foldl (fun a d => a * 10 + (d.toNat - 48)) 0

/-- A decimal digit has code point between 48 and 57. -/
lemma toNat_bounds_of_isDigit (c : Char) (h : c.isDigit = true) :
    48 ≤ c.toNat ∧ c.toNat ≤ 57 := by
  unfold Char.isDigit at h
  rw [Bool.and_eq_true] at h
  obtain ⟨h1, h2⟩ := h
  rw [decide_eq_true_eq] at h1 h2
  exact ⟨h1, h2⟩

/-- No decimal digit is fmt white space. -/
lemma isFmtSpace_eq_false_of_isDigit (c : Char) (h : c.isDigit = true) :
    isFmtSpace c = false := by
  obtain ⟨h1, h2⟩ := toNat_bounds_of_isDigit c h
  simp only [isFmtSpace, Bool.or_eq_false_iff, beq_eq_false_iff_ne, ne_eq,
    Bool.and_eq_false_iff, decide_eq_false_iff_not, not_le]
  omega

/-- `takeWhile isDigit` over a digit run followed by a non-digit keeps
exactly the run. -/
lemma takeWhile_digits (l1 : List Char) (c : Char) (cs : List Char)
    (h : ∀ d ∈ l1, d.isDigit = true) (hc : c.isDigit = false) :
    ((l1 ++ c :: cs).takeWhile Char.isDigit) = l1 := by
  induction l1 with
  | nil => simp [List.takeWhile_cons, hc]
  | cons d t ih =>
    simp [List.cons_append, List.takeWhile_cons, h d (List.mem_cons_self d t),
      ih (fun x hx => h x (List.mem_cons_of_mem d hx))]

/-- The `Sscanf` model on a string that starts with a nonempty digit
run followed by a non-digit: when the run's value fits in int64, it
succeeds with that value. -/
lemma fmtSscanfInt_of_digits (s : String) (ds : List Char) (c : Char) (cs : List Char)
    (hds : ds ≠ []) (hdig : ∀ d ∈ ds, d.isDigit = true) (hc : c.isDigit = false)
    (hcc : s.toList = ds ++ c :: cs)
    (hrange : (natOfDigits ds : Int) ≤ 2 ^ 63 - 1) :
    fmtSscanfInt s = some ((natOfDigits ds : Int)) := by
  obtain ⟨d0, ds2, rfl⟩ := List.exists_cons_of_ne_nil hds
  have hd0 : d0.isDigit = true := hdig d0 (List.mem_cons_self d0 ds2)
  have hsp : isFmtSpace d0 = false := isFmtSpace_eq_false_of_isDigit d0 hd0
  have hnl : ¬ d0 = '\n' := fun h => by rw [h] at hd0; exact absurd hd0 (by decide)
  have hmin : ¬ d0 = '-' := fun h => by rw [h] at hd0; exact absurd hd0 (by decide)
  have hpl : ¬ d0 = '+' := fun h => by rw [h] at hd0; exact absurd hd0 (by decide)
  unfold fmtSscanfInt
  rw [hcc, List.cons_append, List.dropWhile_cons, hsp]
  simp only [Bool.false_eq_true, if_false]
  rw [if_neg hnl, if_neg hmin, if_neg hpl]
  simp only
  rw [show d0 :: (ds2 ++ c :: cs) = (d0 :: ds2) ++ c :: cs from rfl]
  rw [takeWhile_digits (d0 :: ds2) c cs hdig hc]
  have hrange2 : ((List.foldl (fun a d => a * 10 + (d.toNat - 48)) 0 (d0 :: ds2) : Nat) : Int) ≤
      2 ^ 63 - 1 := hrange
  have hnn : (0 : Int) ≤
      ((List.foldl (fun a d => a * 10 + (d.toNat - 48)) 0 (d0 :: ds2) : Nat) : Int) :=
    Int.natCast_nonneg _
  simp only [List.isEmpty_cons, Bool.false_eq_true, if_false, one_mul, natOfDigits]
  rw [if_neg (by omega)]

/-- Record whose cpu count is a digit followed by trailing letters. -/
def cpuInstP : MultipassInfoOutput := { baseInst with release := "rp", cpuCount := "3abc" }

/-- Sample snapshot for the leading-digits cpu parse claim. -/
def leadSample : MultipassInfoResponse := ⟨[("p", cpuInstP)]⟩

/-- Record whose cpu count starts with a 19-digit run (value above the
int64 maximum 9223372036854775807) followed by trailing letters. -/
def cpuInstG : MultipassInfoOutput :=
  { baseInst with release := "rg", cpuCount := "9999999999999999999abc" }

/-- Sample snapshot for the out-of-range leading-digits case. -/
def bigSample : MultipassInfoResponse := ⟨[("g", cpuInstG)]⟩

/-- Claim C10 counterexample: the claim asserts a reading for every
`cpuCount` beginning with a decimal integer followed by non-numeric
text, but for the 19-digit leading run `"9999999999999999999abc"`
(above the int64 maximum) `fmt.Sscanf` fails with ParseInt's range
error and the program emits no cpu reading for the instance. -/
theorem cpu_parse_leading_digits_counterexample :
    cpuInstG.cpuCount = "9999999999999999999abc" ∧
    fmtSscanfInt cpuInstG.cpuCount = none ∧
    readingsOf "multipass_instance_cpu_total" "g" (Collect (bigSample, none)) = [] := by
  refine ⟨rfl, by decide, by decide⟩

/-- Claim C10 as amended: cpu-count parsing is leading-digits based,
not whole-string: when `cpuCount` starts with a nonempty run of
decimal digits whose value fits in a signed 64-bit integer, followed
by a non-digit character, the parse succeeds with the value of that
run and the cpu reading is emitted with that value, rather than the
instance being skipped as unparseable (a leading run beyond the int64
range fails the parse and the instance is skipped). -/
theorem cpu_parse_takes_leading_digits (data : MultipassInfoResponse) (name : String)
    (info : MultipassInfoOutput) (hnd : (data.info.map Prod.fst).Nodup)
    (hmem : (name, info) ∈ data.info)
    (ds : List Char) (c : Char) (cs : List Char)
    (hds : ds ≠ []) (hdig : ∀ d ∈ ds, d.isDigit = true) (hc : c.isDigit = false)
    (hcc : info.cpuCount.toList = ds ++ c :: cs)
    (hrange : (natOfDigits ds : Int) ≤ 2 ^ 63 - 1) :
    fmtSscanfInt info.cpuCount = some ((natOfDigits ds : Int)) ∧
    readingsOf "multipass_instance_cpu_total" name (Collect (data, none)) =
      [⟨"multipass_instance_cpu_total", ((natOfDigits ds : Int) : ℚ), [name, info.release]⟩] := by
  have hparse := fmtSscanfInt_of_digits info.cpuCount ds c cs hds hdig hc hcc hrange
  refine ⟨hparse, ?_⟩
  rw [cpu_section_of_Collect data name info hnd hmem]
  show cpuEntry (name, info) = _
  unfold cpuEntry
  have hne : ¬ info.cpuCount = "" := by
    intro h
    rw [h] at hcc
    rw [show ("" : String).toList = [] from rfl] at hcc
    obtain ⟨d0, ds2, rfl⟩ := List.exists_cons_of_ne_nil hds
    simp at hcc
  rw [if_neg hne, hparse]

/-- Witness for C10 at `cpuCount = "3abc"`: value 3 is emitted. -/
theorem cpu_parse_takes_leading_digits_witness :
    fmtSscanfInt "3abc" = some 3 ∧
    readingsOf "multipass_instance_cpu_total" "p" (Collect (leadSample, none)) =
      [⟨"multipass_instance_cpu_total", (3 : ℚ), ["p", "rp"]⟩] := by
  have h := cpu_parse_takes_leading_digits leadSample "p" cpuInstP (by decide) (by decide)
    (['3'] : List Char) 'a' (['b', 'c'] : List Char) (by decide) (by decide) (by decide) rfl
    (by decide)
  constructor
  · rw [show ("3abc" : String) = cpuInstP.cpuCount from rfl, h.1]
    decide
  · rw [h.2]
    decide

/-- Record with one byte of used memory. -/
def memInstOne : MultipassInfoOutput :=
  { baseInst with release := "r1", memory := { total := 0, used := 1 } }

/-- Record with two bytes of used memory. -/
def memInstTwo : MultipassInfoOutput :=
  { baseInst with release := "r2", memory := { total := 0, used := 2 } }

/-- One iteration order of a two-instance snapshot map. -/
def mapAB : List (String × MultipassInfoOutput) := [("a", memInstOne), ("b", memInstTwo)]

/-- The other iteration order of the same snapshot map. -/
def mapBA : List (String × MultipassInfoOutput) := [("b", memInstTwo), ("a", memInstOne)]

/-- Claim C6 counterexample: `Collect` ranges over a Go map, whose
iteration order is randomized per call, so two calls on the same
snapshot object need not yield identical ordered readings.  The two
lists below are permutations of each other — two iteration orders of
the same two-instance map — yet `Collect` produces different ordered
sequences for them. -/
theorem collect_order_not_deterministic :
    mapAB.Perm mapBA ∧ Collect (⟨mapAB⟩, none) ≠ Collect (⟨mapBA⟩, none) := by
  constructor
  · exact List.Perm.swap _ _ _
  · decide

/-- Claim C6 as amended: two `Collect` calls on the same snapshot map
yield reading sequences that are permutations of each other (identical
multisets of readings); the sequences are identical whenever the two
iteration orders coincide, which Go does not guarantee. -/
theorem collect_perm_of_iteration_orders (l1 l2 : List (String × MultipassInfoOutput))
    (e : Option FetchErr) (h : l1.Perm l2) :
    (Collect (⟨l1⟩, e)).Perm (Collect (⟨l2⟩, e)) := by
  cases e with
  | some err => exact List.Perm.refl _
  | none =>
    rw [Collect_ok, Collect_ok]
    have hcount : runInstanceMetrics ⟨l1⟩ instanceMetrics =
        runInstanceMetrics ⟨l2⟩ instanceMetrics := by
      rw [runInstanceMetrics_eq, runInstanceMetrics_eq]
      have hlen := h.length_eq
      have h1 := List.Perm.countP_eq (fun p => decide (p.2.state = "Running")) h
      have h2 := List.Perm.countP_eq (fun p => decide (p.2.state = "Stopped")) h
      have h3 := List.Perm.countP_eq (fun p => decide (p.2.state = "Deleted")) h
      have h4 := List.Perm.countP_eq (fun p => decide (p.2.state = "Suspended")) h
      unfold getInstanceCountByStateWithData
      simp only
      rw [hlen, h1, h2, h3, h4]
    rw [hcount]
    exact List.Perm.append
      (List.Perm.append
        (List.Perm.append (List.Perm.refl _) (List.Perm.flatMap_right memEntry h))
        (List.Perm.flatMap_right cpuEntry h))
      (List.Perm.flatMap_right loadEntry h)

/-- Witness for the amended C6 at the two concrete iteration orders. -/
theorem collect_perm_of_iteration_orders_witness :
    (Collect (⟨mapAB⟩, none)).Perm (Collect (⟨mapBA⟩, none)) :=
  collect_perm_of_iteration_orders mapAB mapBA none (List.Perm.swap _ _ _)

end MultipassExporter
